import Mathlib

/-!
Verification of the sACN/E1.31 networking core of lightshowpi-neo
(`py/networking_sacn.py`) and, where the repository only ships tests for it,
the spec-modelled band-energy engine (`fft.py`).

Conventions of the shallow embedding:
* raw packet bytes are `List Nat` with entries below 256;
* Python floats are modelled as exact rationals `ℚ`;
* the two UDP sockets are modelled by presence flags (`true` = socket object
  present, `false` = the attribute is `None`);
* logging has no semantic content except where a claim is about a log event,
  in which case the condition guarding the log call is returned as a `Bool`.
-/

namespace LightshowPiNeo

/-- The result dictionary of `SACNNetworking.parse_e131_packet`
(`{'universe': ..., 'sequence': ..., 'dmx_data': ...}`). -/
/- `universe` is a Lean keyword, so the dict key 'universe' is embedded as
`universe_id` throughout. -/
structure SACNGPIOData where
  universe_id : Nat
  sequence : Nat
  dmx_data : List Nat
deriving DecidableEq, Repr

/-- The fixed ACN packet identifier checked at offsets 4..15:
the bytes of `b"ASC-E1.17\x00\x00\x00"`. -/
def ACN_PACKET_IDENTIFIER : List Nat :=
  [0x41, 0x53, 0x43, 0x2d, 0x45, 0x31, 0x2e, 0x31, 0x37, 0x00, 0x00, 0x00]

/-- The `while len(dmx_data) > 1 and dmx_data[-1] == 0: dmx_data.pop()` loop of
`parse_e131_packet`, expressed on the reversed list: drop leading zeros while
more than one element remains. -/
def dropZerosKeepOne : List Nat → List Nat
  | [] => []
  | [a] => [a]
  | a :: b :: t => if a = 0 then dropZerosKeepOne (b :: t) else a :: b :: t

/-- Trailing-zero stripping performed by `parse_e131_packet` on the DMX data:
remove trailing zero bytes but never shrink a non-empty list below one
element. -/
def stripTrailingZeros (l : List Nat) : List Nat :=
  (dropZerosKeepOne l.reverse).reverse

/-- The specification's description of the stripping policy, stated
independently of the source's loop: keep the prefix up to the last non-zero
byte, but at least one byte. -/
def specStrip (l : List Nat) : List Nat :=
  l.take (max 1 (l.reverse.dropWhile (fun b => b == 0)).length)

/-- `SACNNetworking.parse_e131_packet` (networking_sacn.py:395-456): validates
minimum length, preamble, ACN identifier and DMX start code, then extracts
universe (big-endian at 113..114), sequence (offset 111) and the DMX data
from offset 126 with trailing zeros stripped. Returns `none` where the
Python returns `None`. -/
def parse_e131_packet (data : List Nat) : Option SACNGPIOData :=
  if data.length < 126 then none
  else
    let preamble := 256 * data.getD 0 0 + data.getD 1 0
    if preamble ≠ 0x0010 then none
    else
      let acn_id := (data.drop 4).take 12
      if acn_id ≠ ACN_PACKET_IDENTIFIER then none
      else
        let univ := 256 * data.getD 113 0 + data.getD 114 0
        let seq := data.getD 111 0
        let dmx_start_code := data.getD 125 0
        if dmx_start_code ≠ 0 then none
        else some ⟨univ, seq, stripTrailingZeros (data.drop 126)⟩

/-- The 64-byte source-name field of an E1.31 frame: the UTF-8 bytes of the
name, truncated to 64 bytes and zero padded. -/
def sourceNameField (name : String) : List Nat :=
  let bs := name.toUTF8.toList.map (fun b => b.toNat)
  bs.take 64 ++ List.replicate (64 - bs.length) 0

/-- Modelled from the spec: the encoder `e131packet.E131Packet` imported by
networking_sacn.py is not under src/. Per spec §4.3 and §6 the encoded frame
has the 0x0010 preamble at offsets 0..1, the ACN root identifier at 4..15,
the sequence byte at 111, the big-endian universe at 113..114, a zero DMX
start code at 125 and the channel payload from offset 126. The source name
occupies the standard source-name field at 44..107; bytes the spec leaves
unspecified are zero (the decoder reads none of them). This function gives
the byte at header offset `i`. -/
def e131_headerByte (name : String) (univ seq : Nat) (i : Nat) : Nat :=
  if i = 1 then 0x10
  else if 4 ≤ i ∧ i < 16 then ACN_PACKET_IDENTIFIER.getD (i - 4) 0
  else if 44 ≤ i ∧ i < 108 then (sourceNameField name).getD (i - 44) 0
  else if i = 111 then seq % 256
  else if i = 113 then univ / 256 % 256
  else if i = 114 then univ % 256
  else 0

/-- Modelled from the spec: the full wire frame of `E131Packet.packet_data` —
the 126-byte header followed by the channel payload. -/
def e131_encode (name : String) (univ seq : Nat)
    (channel_bytes : List Nat) : List Nat :=
  (List.range 126).map (e131_headerByte name univ seq) ++ channel_bytes

/-- The configuration fields of `SACNNetworking.__init__` that the data and
control planes read (resolved once from the configuration manager). -/
structure NetConfig where
  sacn_address : String
  universe_start : Nat
  universe_boundary : Nat
  enable_multicast : Bool
  num_channels : Nat
deriving DecidableEq, Repr

/-- The mutable state of a `SACNNetworking` instance. The two socket
attributes are modelled by presence flags (`false` means the attribute is
`None`); `last_sequence` models the per-universe Python dict as an
association list. -/
structure NetState where
  ready : Bool
  sequence_num : Nat
  last_sequence : List (Nat × Nat)
  network_stream : Bool
  control_stream : Bool
deriving DecidableEq, Repr

/-- One E1.31 packet handed to `sendto` by `broadcast`: the arguments of the
`E131Packet` constructor (name fixed to 'LightShowPi'). -/
structure SentPacket where
  universe_id : Nat
  sequence : Nat
  data : List Nat
deriving DecidableEq, Repr

/-- The wire bytes of a sent packet (`packet.packet_data`). -/
def SentPacket.wire (p : SentPacket) : List Nat :=
  e131_encode "LightShowPi" p.universe_id p.sequence p.data

/-- The brightness-to-DMX conversion of `broadcast`:
`int(min(max(b, 0.0), 1.0) * 255)` with floats as exact rationals
(`int` truncates, and the clamped value is non-negative, so it is a floor). -/
def dmxOfBrightness (b : ℚ) : Nat :=
  ⌊min (max b 0) 1 * 255⌋.toNat

/-- `SACNNetworking.broadcast` (networking_sacn.py:212-268): skip when the
data-plane socket is closed; otherwise convert brightness to DMX bytes,
split into universes of at most `universe_boundary` channels, build one
packet per universe with the shared sequence number, then increment the
sequence counter mod 256. Returns the packets passed to `sendto` together
with the successor state. -/
def broadcast (cfg : NetConfig) (st : NetState) (brightness_array : List ℚ) :
    List SentPacket × NetState :=
  if st.network_stream = false then ([], st)
  else
    let dmx_data := brightness_array.map dmxOfBrightness
    let num_channels := dmx_data.length
    let num_universes :=
      (num_channels + cfg.universe_boundary - 1) / cfg.universe_boundary
    let packets := (List.range num_universes).map (fun univ_idx =>
      let univ := cfg.universe_start + univ_idx
      let start_idx := univ_idx * cfg.universe_boundary
      let end_idx := min (start_idx + cfg.universe_boundary) num_channels
      let universe_data := (dmx_data.take end_idx).drop start_idx
      let universe_data := if universe_data = [] then [0] else universe_data
      SentPacket.mk univ st.sequence_num universe_data)
    (packets, { st with sequence_num := (st.sequence_num + 1) % 256 })

/-- `self.last_sequence.get(universe, -1)` (networking_sacn.py:334). -/
def lastSeqGet (m : List (Nat × Nat)) (u : Nat) : Int :=
  match m.lookup u with
  | some s => (s : Int)
  | none => -1

/-- `self.last_sequence[universe] = sequence` (networking_sacn.py:344):
update-or-append on the association list modelling the dict. -/
def assocSet (m : List (Nat × Nat)) (k v : Nat) : List (Nat × Nat) :=
  match m with
  | [] => [(k, v)]
  | (k', v') :: t => if k' = k then (k, v) :: t else (k', v') :: assocSet t k v

/-- The condition guarding the out-of-order debug log in `receive`
(networking_sacn.py:338-341): the universe has been seen
(`last_seq >= 0`), the new sequence is smaller, and the last sequence is
not near the 255→0 wraparound (`last_seq < 250`). -/
def out_of_order_flag (last_seq : Int) (seq : Nat) : Bool :=
  decide (0 ≤ last_seq) && (decide ((seq : Int) < last_seq) && decide (last_seq < 250))

/-- The pad-or-truncate step of `receive` (networking_sacn.py:349-353):
extend with zeros when too short, cut when too long. -/
def padOrTruncate (n : Nat) (l : List ℚ) : List ℚ :=
  if l.length < n then l ++ List.replicate (n - l.length) (0 : ℚ)
  else if n < l.length then l.take n
  else l

/-- `SACNNetworking.receive` (networking_sacn.py:312-362). `incoming` is the
datagram delivered by `recvfrom` (`none` models `socket.timeout`); a datagram
is truncated to the 1024-byte receive buffer. When the data-plane socket is
`None` the attribute access raises and the general handler returns `None`
with the state untouched. On a parsed packet the out-of-order condition is
logged (returned here as the `Bool`), `last_sequence` is updated
unconditionally, DMX bytes become brightness floats, and the frame is padded
or truncated to `num_channels`. -/
def receive (cfg : NetConfig) (st : NetState) (incoming : Option (List Nat)) :
    Option (List ℚ) × Bool × NetState :=
  if st.network_stream = false then (none, false, st)
  else
    match incoming with
    | none => (none, false, st)
    | some raw =>
      let data := raw.take 1024
      match parse_e131_packet data with
      | none => (none, false, st)
      | some parsed =>
        let last_seq := lastSeqGet st.last_sequence parsed.universe_id
        let flag := out_of_order_flag last_seq parsed.sequence
        let st' := { st with
          last_sequence := assocSet st.last_sequence parsed.universe_id parsed.sequence }
        let brightness_array := parsed.dmx_data.map (fun dmx : Nat => (dmx : ℚ) / 255)
        (some (padOrTruncate cfg.num_channels brightness_array), flag, st')

/-- The JSON override message of `broadcast_overrides`
(networking_sacn.py:285-291); the dict key 'type' is embedded as `msg_type`
and `time.time()` is passed in as `timestamp`. -/
structure ControlMessage where
  msg_type : String
  always_off : List Nat
  always_on : List Nat
  inverted : List Nat
  timestamp : ℚ
deriving DecidableEq, Repr

/-- `SACNNetworking.broadcast_overrides` (networking_sacn.py:270-310): no-op
when the control socket is `None`; otherwise one send per non-empty
configured unicast address, or a single send to `<broadcast>`. Returns the
(address, message) pairs passed to `sendto`; the state is never mutated. -/
def broadcast_overrides (cfg : NetConfig) (st : NetState)
    (always_off always_on inverted : List Nat) (now : ℚ) :
    List (String × ControlMessage) × NetState :=
  if st.control_stream = false then ([], st)
  else
    let message : ControlMessage := ⟨"overrides", always_off, always_on, inverted, now⟩
    if cfg.sacn_address ≠ "" then
      ((((cfg.sacn_address.splitOn ",").map String.trim).filter
          (fun a => a ≠ "")).map (fun a => (a, message)), st)
    else
      ([("<broadcast>", message)], st)

/-- What arrives on the control socket in one `receive_control_message` call:
a timeout, undecodable JSON, or a decoded message whose 'type' key may be
absent. -/
inductive ControlDatagram where
  | timeout
  | malformed
  | message (m : ControlMessage) (has_type_field : Bool)
deriving DecidableEq

/-- `SACNNetworking.receive_control_message` (networking_sacn.py:364-393):
returns `None` when the control socket is `None`, on timeout, on invalid
JSON, and on a message without a 'type' field; otherwise the message. -/
def receive_control_message (st : NetState) (incoming : ControlDatagram) :
    Option ControlMessage × NetState :=
  if st.control_stream = false then (none, st)
  else
    match incoming with
    | .timeout => (none, st)
    | .malformed => (none, st)
    | .message m has => if has then (some m, st) else (none, st)

/-- `SACNNetworking.close_connection` (networking_sacn.py:200-210): clears
`ready` and releases both sockets. -/
def close_connection (st : NetState) : NetState :=
  { st with ready := false, network_stream := false, control_stream := false }

/-- The data-plane target-address resolution of `setup_server`
(networking_sacn.py:98-110): multicast template, else first configured
unicast address, else broadcast. -/
def resolve_target_address (enable_multicast : Bool) (sacn_address : String)
    (universe_start : Nat) : String :=
  if enable_multicast then
    "239.255." ++ toString ((universe_start >>> 8) &&& 0xFF) ++ "."
      ++ toString (universe_start &&& 0xFF)
  else if sacn_address ≠ "" then
    ((sacn_address.splitOn ",").headD "").trim
  else
    "<broadcast>"

/-- The observable outcome of `setup_server` / `setup_client`: either the
process exits (`sys.exit`) or setup completes with the given socket
availability. -/
inductive SetupResult where
  | exited (code : Nat)
  | ready (data_plane : Bool) (control_plane : Bool)
deriving DecidableEq, Repr

/-- `SACNNetworking.setup_server` (networking_sacn.py:93-145) with socket
creation success injected per plane: a data-plane socket failure calls
`sys.exit(1)`; a control-plane failure only logs a warning and leaves
`control_stream = None`. -/
def setup_server_outcome (data_sock_ok control_sock_ok : Bool) : SetupResult :=
  if data_sock_ok = false then .exited 1
  else .ready true control_sock_ok

/-- `SACNNetworking.setup_client` (networking_sacn.py:147-198): same failure
policy as the server role. -/
def setup_client_outcome (data_sock_ok control_sock_ok : Bool) : SetupResult :=
  if data_sock_ok = false then .exited 1
  else .ready true control_sock_ok

/-- A 600-channel all-dark brightness frame (the spec's universe-splitting
example size). -/
def frame600 : List ℚ := List.replicate 600 0

/-- Modelled from the spec: `fft.py` (the BandEnergyEngine) is not under
src/ — only its tests are. Per spec §3/§4.1 the engine fixes at
initialization an ordered, contiguous list of `num_bins` frequency bands
covering `[min_frequency, max_frequency)` (log-spaced by default, or an
explicit per-channel band list when a custom channel mapping is supplied),
resolves `use_gpu` to `False`, and is immutable thereafter. -/
structure FFT where
  chunk_size : Nat
  sample_rate : Nat
  num_bins : Nat
  frequency_limits : List (ℚ × ℚ)
  use_gpu : Bool
deriving DecidableEq, Repr

/-- Modelled from the spec: BandEnergyEngine initialization (§4.1). Fails
(configuration error, `none`) if `min_frequency >= max_frequency` or
`num_bins <= 0`, or if an explicit per-channel band list does not have one
band per bin. The default log-spaced band edges are transcendental, so the
edge placement is abstracted as the strictly structural argument `edge`
(band `i` spans `[edge i, edge (i+1))`); no claim in scope depends on where
the edges fall. `use_gpu` always resolves to `false`. -/
def FFT.init (chunk_size sample_rate num_bins : Nat)
    (min_frequency max_frequency : ℚ)
    (custom_channel_mapping : Option (List (ℚ × ℚ))) (edge : Nat → ℚ)
    (use_gpu : Bool) : Option FFT :=
  if max_frequency ≤ min_frequency then none
  else if num_bins = 0 then none
  else
    match custom_channel_mapping with
    | some bands =>
      if bands.length = num_bins then
        some ⟨chunk_size, sample_rate, num_bins, bands, false⟩
      else none
    | none =>
      some ⟨chunk_size, sample_rate, num_bins,
        (List.range num_bins).map (fun i => (edge i, edge (i + 1))), false⟩

/-- Modelled from the spec: `calculate_levels` (§4.1). The int16 sample block
is truncated/zero-padded to `chunk_size`, windowed, its magnitude spectrum
is taken, the magnitude is aggregated per configured band (bin `i` has
frequency `i * sample_rate / chunk_size`; the comparison is cross-multiplied
to stay in exact arithmetic), and each band is normalized by the fixed
full-scale reference. The window coefficients and the magnitude spectrum
involve transcendental constants, so they are abstracted as arguments
`window` and `spectrum`; the claims in scope are independent of their
values. -/
def FFT.calculate_levels (m : FFT) (spectrum : List ℚ → List ℚ)
    (window : List ℚ) (full_scale : ℚ) (samples : List Int) : List ℚ :=
  let data := (samples.map (fun v => (v : ℚ))).take m.chunk_size
  let data := data ++ List.replicate (m.chunk_size - data.length) 0
  let windowed := List.zipWith (fun w v => w * v) window data
  let mags := spectrum windowed
  m.frequency_limits.map (fun band =>
    let idxs := (List.range mags.length).filter (fun i : Nat =>
      decide (band.1 * (m.chunk_size : ℚ) ≤ (i : ℚ) * (m.sample_rate : ℚ)) &&
      decide ((i : ℚ) * (m.sample_rate : ℚ) < band.2 * (m.chunk_size : ℚ)))
    (idxs.foldl (fun acc i => acc + mags.getD i 0) 0) / full_scale)

/-! Concrete instances used by the witness theorems. -/

/-- A server configuration: broadcast fallback, universes from 1,
the standard 512-channel universe boundary, 16 GPIO channels. -/
def cfgStd : NetConfig :=
  { sacn_address := "", universe_start := 1, universe_boundary := 512,
    enable_multicast := false, num_channels := 16 }

/-- A ready state with both sockets open, sequence counter 7 and one
universe already seen. -/
def stReady : NetState :=
  { ready := true, sequence_num := 7, last_sequence := [(9, 3)],
    network_stream := true, control_stream := true }

/-- A ready state with empty sequence map and sequence counter 0. -/
def stFresh : NetState :=
  { ready := true, sequence_num := 0, last_sequence := [],
    network_stream := true, control_stream := true }

/-- The sample DMX payload of `test_sacn_parsing` (networking_sacn.py:473). -/
def samplePayload : List Nat := [255, 128, 64, 0, 32, 96, 160, 224]

/-- A 16-channel brightness frame shaped like the spec's end-to-end example
`[1.0, 0.0, 0.5, ...]`. -/
def sampleFrame : List ℚ :=
  [1, 0, 1/2, 1/4, 3/4, 1/3, 2/3, 1/5, 0, 1, 1/2, 1/255, 254/255, 1/7, 9/10, 1/1000]

/-- A concrete spec-modelled engine produced by `FFT.init` with 3 bins. -/
def fftSmall : FFT :=
  { chunk_size := 4, sample_rate := 8, num_bins := 3,
    frequency_limits := [(1, 2), (2, 3), (3, 4)], use_gpu := false }

/-! ### Helper lemmas: the trailing-zero stripping loop -/

theorem dropZerosKeepOne_eq_drop : ∀ r : List Nat,
    dropZerosKeepOne r =
      r.drop (r.length - max 1 (r.dropWhile (fun b => b == 0)).length)
  | [] => by simp [dropZerosKeepOne]
  | [a] => by
      by_cases h : a = 0 <;>
        simp [dropZerosKeepOne, List.dropWhile, h]
  | a :: b :: t => by
      have hle : (List.dropWhile (fun x => x == 0) (b :: t)).length ≤ (b :: t).length :=
        (List.dropWhile_sublist _).length_le
      by_cases h : a = 0
      · rw [dropZerosKeepOne, if_pos h]
        rw [List.dropWhile_cons_of_pos (a := a) (l := b :: t) (by simp [h])]
        rw [dropZerosKeepOne_eq_drop (b :: t)]
        have harith :
            (a :: b :: t).length -
                max 1 (List.dropWhile (fun x => x == 0) (b :: t)).length =
              ((b :: t).length -
                max 1 (List.dropWhile (fun x => x == 0) (b :: t)).length) + 1 := by
          simp only [List.length_cons] at hle ⊢
          omega
        rw [harith, List.drop_succ_cons]
      · rw [dropZerosKeepOne, if_neg h]
        rw [List.dropWhile_cons_of_neg (a := a) (l := b :: t) (by simp [h])]
        have : (a :: b :: t).length - max 1 (a :: b :: t).length = 0 := by
          simp
        rw [this, List.drop_zero]

theorem stripTrailingZeros_eq_take (l : List Nat) :
    stripTrailingZeros l =
      l.take (max 1 (l.reverse.dropWhile (fun b => b == 0)).length) := by
  unfold stripTrailingZeros
  rw [dropZerosKeepOne_eq_drop, List.length_reverse, ← List.reverse_take,
    List.reverse_reverse]

theorem stripTrailingZeros_eq_specStrip (l : List Nat) :
    stripTrailingZeros l = specStrip l := by
  rw [stripTrailingZeros_eq_take]; rfl

theorem stripTrailingZeros_length_le (l : List Nat) :
    (stripTrailingZeros l).length ≤ l.length := by
  rw [stripTrailingZeros_eq_take]
  simp

theorem stripTrailingZeros_getD (l : List Nat) (i : Nat)
    (h : i < (stripTrailingZeros l).length) :
    (stripTrailingZeros l).getD i 0 = l.getD i 0 := by
  rw [stripTrailingZeros_eq_take] at h ⊢
  rw [List.length_take] at h
  rw [List.getD_eq_getElem?_getD, List.getD_eq_getElem?_getD,
    List.getElem?_take_of_lt (by omega)]

theorem getD_zero_of_strip_le (l : List Nat) (i : Nat)
    (h : (stripTrailingZeros l).length ≤ i) : l.getD i 0 = 0 := by
  rw [stripTrailingZeros_eq_take, List.length_take] at h
  by_cases hi : l.length ≤ i
  · rw [List.getD_eq_getElem?_getD, List.getElem?_eq_none hi]
    rfl
  · push_neg at hi
    have hKi : (l.reverse.dropWhile (fun b => b == 0)).length ≤ i := by omega
    have hlen :
        (l.reverse.takeWhile (fun b => b == 0)).length +
          (l.reverse.dropWhile (fun b => b == 0)).length = l.length := by
      rw [← List.length_append, List.takeWhile_append_dropWhile, List.length_reverse]
    have hj : l.length - 1 - i < (l.reverse.takeWhile (fun b => b == 0)).length := by
      omega
    have hrev : l[i]? = l.reverse[l.length - 1 - i]? := by
      rw [List.getElem?_reverse (by omega)]
      congr 1
      omega
    have happ : l.reverse[l.length - 1 - i]? =
        (l.reverse.takeWhile (fun b => b == 0))[l.length - 1 - i]? := by
      conv_lhs =>
        rw [← List.takeWhile_append_dropWhile (p := fun b => b == 0) (l := l.reverse)]
      rw [List.getElem?_append_left hj]
    have hsome : (l.reverse.takeWhile (fun b => b == 0))[l.length - 1 - i]? =
        some ((l.reverse.takeWhile (fun b => b == 0)).get ⟨l.length - 1 - i, hj⟩) :=
      List.getElem?_eq_getElem hj
    have hmem : (l.reverse.takeWhile (fun b => b == 0)).get ⟨l.length - 1 - i, hj⟩ ∈
        l.reverse.takeWhile (fun b => b == 0) := List.get_mem _ _ hj
    have hzero : (l.reverse.takeWhile (fun b => b == 0)).get ⟨l.length - 1 - i, hj⟩ = 0 := by
      simpa using List.mem_takeWhile_imp hmem
    rw [List.getD_eq_getElem?_getD, hrev, happ, hsome, hzero]
    rfl

/-! ### Helper lemmas: the encoded frame and the decoder -/

theorem e131_encode_length (name : String) (u s : Nat) (cb : List Nat) :
    (e131_encode name u s cb).length = 126 + cb.length := by
  simp [e131_encode]

theorem e131_encode_getD (name : String) (u s : Nat) (cb : List Nat) (i : Nat)
    (h : i < 126) :
    (e131_encode name u s cb).getD i 0 = e131_headerByte name u s i := by
  unfold e131_encode
  rw [List.getD_eq_getElem?_getD,
    List.getElem?_append_left (by simpa using h),
    List.getElem?_map, List.getElem?_range h]
  rfl

theorem e131_encode_drop126 (name : String) (u s : Nat) (cb : List Nat) :
    (e131_encode name u s cb).drop 126 = cb := by
  unfold e131_encode
  exact List.drop_left' (by simp)

theorem e131_encode_acn (name : String) (u s : Nat) (cb : List Nat) :
    ((e131_encode name u s cb).drop 4).take 12 = ACN_PACKET_IDENTIFIER := by
  unfold e131_encode
  rw [List.drop_append_eq_append_drop, List.take_append_eq_append_take,
    ← List.map_drop, ← List.map_take]
  have h12 : List.take 12 (List.drop 4 (List.range 126)) =
      [4, 5, 6, 7, 8, 9, 10, 11, 12, 13, 14, 15] := by decide
  rw [h12]
  have hlen2 : 12 - ((List.drop 4 (List.range 126)).map
      (e131_headerByte name u s)).length = 0 := by
    simp
  rw [hlen2, List.take_zero, List.append_nil]
  norm_num [e131_headerByte, ACN_PACKET_IDENTIFIER,
    List.getD_eq_getElem?_getD]

/-- The decoder inverts the spec-modelled encoder on every payload: the
universe and sequence are recovered modulo their wire widths and the payload
comes back with trailing zeros stripped. -/
theorem parse_e131_encode (name : String) (u s : Nat) (cb : List Nat) :
    parse_e131_packet (e131_encode name u s cb) =
      some ⟨u % 65536, s % 256, stripTrailingZeros cb⟩ := by
  have hlen := e131_encode_length name u s cb
  have h0 := e131_encode_getD name u s cb 0 (by norm_num)
  have h1 := e131_encode_getD name u s cb 1 (by norm_num)
  have h111 := e131_encode_getD name u s cb 111 (by norm_num)
  have h113 := e131_encode_getD name u s cb 113 (by norm_num)
  have h114 := e131_encode_getD name u s cb 114 (by norm_num)
  have h125 := e131_encode_getD name u s cb 125 (by norm_num)
  have hacn := e131_encode_acn name u s cb
  have hdrop := e131_encode_drop126 name u s cb
  have e0 : e131_headerByte name u s 0 = 0 := by norm_num [e131_headerByte]
  have e1 : e131_headerByte name u s 1 = 0x10 := by norm_num [e131_headerByte]
  have e111 : e131_headerByte name u s 111 = s % 256 := by
    norm_num [e131_headerByte]
  have e113 : e131_headerByte name u s 113 = u / 256 % 256 := by
    norm_num [e131_headerByte]
  have e114 : e131_headerByte name u s 114 = u % 256 := by
    norm_num [e131_headerByte]
  have e125 : e131_headerByte name u s 125 = 0 := by norm_num [e131_headerByte]
  simp only [parse_e131_packet, hlen, h0, h1, h111, h113, h114, h125, hacn,
    hdrop, e0, e1, e111, e113, e114, e125]
  norm_num
  omega

/-! ### Helper lemmas: transport -/

theorem receive_encoded (cfg : NetConfig) (st : NetState) (name : String)
    (u s : Nat) (payload : List Nat) (hstream : st.network_stream = true)
    (hplen : payload.length ≤ 898) :
    receive cfg st (some (e131_encode name u s payload)) =
      (some (padOrTruncate cfg.num_channels
          ((stripTrailingZeros payload).map (fun d : Nat => (d : ℚ) / 255))),
       out_of_order_flag (lastSeqGet st.last_sequence (u % 65536)) (s % 256),
       { st with last_sequence := assocSet st.last_sequence (u % 65536) (s % 256) }) := by
  have htake : (e131_encode name u s payload).take 1024 =
      e131_encode name u s payload :=
    List.take_of_length_le (by rw [e131_encode_length]; omega)
  simp [receive, hstream, htake, parse_e131_encode]

theorem broadcast_single (cfg : NetConfig) (st : NetState) (arr : List ℚ)
    (hstream : st.network_stream = true) (h1 : 1 ≤ arr.length)
    (h2 : arr.length ≤ cfg.universe_boundary) :
    broadcast cfg st arr =
      ([⟨cfg.universe_start, st.sequence_num, arr.map dmxOfBrightness⟩],
        { st with sequence_num := (st.sequence_num + 1) % 256 }) := by
  have hb : 1 ≤ cfg.universe_boundary := le_trans h1 h2
  have hlen : (arr.map dmxOfBrightness).length = arr.length := List.length_map _ _
  have huniv : (arr.length + cfg.universe_boundary - 1) / cfg.universe_boundary = 1 :=
    Nat.div_eq_of_lt_le (by omega) (by omega)
  have hnonempty : arr.map dmxOfBrightness ≠ [] :=
    List.ne_nil_of_length_pos (by omega)
  unfold broadcast
  rw [hstream, if_neg (by simp)]
  have hr1 : List.range 1 = [0] := rfl
  simp only [hlen, huniv, hr1, List.map_cons, List.map_nil,
    Nat.zero_mul, Nat.zero_add, List.drop_zero, Nat.add_zero]
  rw [min_eq_right h2, List.take_of_length_le (le_of_eq hlen),
    if_neg hnonempty]

theorem padOrTruncate_length_of_le (n : Nat) (l : List ℚ) (h : l.length ≤ n) :
    (padOrTruncate n l).length = n := by
  unfold padOrTruncate
  split_ifs with h1 h2
  · simp
    omega
  · omega
  · omega

theorem padOrTruncate_getD_lt (n : Nat) (l : List ℚ) (i : Nat)
    (h : i < l.length) (hn : i < n) :
    (padOrTruncate n l).getD i 0 = l.getD i 0 := by
  unfold padOrTruncate
  split_ifs with h1 h2
  · rw [List.getD_eq_getElem?_getD, List.getElem?_append_left h,
      ← List.getD_eq_getElem?_getD]
  · rw [List.getD_eq_getElem?_getD, List.getD_eq_getElem?_getD,
      List.getElem?_take_of_lt hn]
  · rfl

theorem padOrTruncate_getD_ge (n : Nat) (l : List ℚ) (i : Nat)
    (h : l.length ≤ i) (hn : i < n) :
    (padOrTruncate n l).getD i 0 = 0 := by
  unfold padOrTruncate
  split_ifs with h1 h2
  · rw [List.getD_eq_getElem?_getD, List.getElem?_append_right (by simpa using h),
      List.getElem?_replicate]
    have hlt : i - l.length < n - l.length := by omega
    simp [hlt]
  · exact absurd hn (by omega)
  · exact absurd hn (by omega)

theorem getD_map_lt {α β : Type} (f : α → β) (l : List α) (i : Nat) (d : β)
    (d' : α) (h : i < l.length) : (l.map f).getD i d = f (l.getD i d') := by
  rw [List.getD_eq_getElem?_getD, List.getElem?_map, List.getElem?_eq_getElem h,
    List.getD_eq_getElem?_getD, List.getElem?_eq_getElem h]
  rfl

theorem getD_mem_of_lt (l : List ℚ) (i : Nat) (d : ℚ) (h : i < l.length) :
    l.getD i d ∈ l := by
  rw [List.getD_eq_getElem?_getD, List.getElem?_eq_getElem h]
  simpa using List.getElem_mem h

theorem dmxOfBrightness_roundtrip (x : ℚ) (h0 : 0 ≤ x) (h1 : x ≤ 1) :
    |((dmxOfBrightness x : ℕ) : ℚ) / 255 - x| ≤ 1 / 255 := by
  unfold dmxOfBrightness
  rw [max_eq_left h0, min_eq_left h1]
  have hnn : (0 : ℚ) ≤ x * 255 := by positivity
  have hfl : (0 : ℤ) ≤ ⌊x * 255⌋ := Int.floor_nonneg.mpr hnn
  have hcast : ((⌊x * 255⌋.toNat : ℕ) : ℚ) = ((⌊x * 255⌋ : ℤ) : ℚ) := by
    rw [← Int.cast_natCast, Int.toNat_of_nonneg hfl]
  rw [hcast]
  have hle : ((⌊x * 255⌋ : ℤ) : ℚ) ≤ x * 255 := Int.floor_le _
  have hlt : x * 255 < ((⌊x * 255⌋ : ℤ) : ℚ) + 1 := Int.lt_floor_add_one _
  rw [abs_le]
  constructor <;> linarith

/-! ### Claims -/

/-- C1: for every valid `(universe, sequence, channel_bytes)` tuple with
`1 ≤ len(channel_bytes) ≤ 512`, decoding the frame produced by the codec's
encoder yields the same universe, the same sequence, and the channel bytes
with trailing zeros stripped down to a minimum length of 1. -/
theorem claim_C1_codec_round_trip (name : String) (u s : Nat) (cb : List Nat)
    (hu : u < 65536) (hs : s < 256) (hlen1 : 1 ≤ cb.length)
    (hlen2 : cb.length ≤ 512) (hbytes : ∀ b ∈ cb, b < 256) :
    parse_e131_packet (e131_encode name u s cb) = some ⟨u, s, specStrip cb⟩ ∧
    1 ≤ (specStrip cb).length := by
  constructor
  · rw [parse_e131_encode, Nat.mod_eq_of_lt hu, Nat.mod_eq_of_lt hs,
      stripTrailingZeros_eq_specStrip]
  · unfold specStrip
    rw [List.length_take]
    omega

theorem claim_C1_codec_round_trip_witness :
    ((1 : Nat) < 65536 ∧ (42 : Nat) < 256 ∧ 1 ≤ samplePayload.length ∧
      samplePayload.length ≤ 512 ∧ (∀ b ∈ samplePayload, b < 256)) ∧
    parse_e131_packet (e131_encode "LightShowPi" 1 42 samplePayload) =
      some ⟨1, 42, specStrip samplePayload⟩ :=
  ⟨⟨by decide, by decide, by decide, by decide, by decide⟩,
   (claim_C1_codec_round_trip "LightShowPi" 1 42 samplePayload (by decide)
      (by decide) (by decide) (by decide) (by decide)).1⟩

/-- C2: `parse_e131_packet` returns `None` exactly when the buffer is shorter
than 126 bytes, or the big-endian 16-bit preamble at offset 0 is not 0x0010,
or bytes 4..15 are not 'ASC-E1.17' plus three zero bytes, or the DMX
start-code byte at offset 125 is non-zero; on every other buffer it returns
the big-endian universe at 113..114, the sequence byte at 111, and the
channel data from offset 126 with trailing zeros trimmed (keeping at least
one byte of any non-empty payload), never raising. -/
theorem claim_C2_decode_contract (data : List Nat)
    (hbytes : ∀ b ∈ data, b < 256) :
    (parse_e131_packet data = none ↔
      (data.length < 126 ∨
       256 * data.getD 0 0 + data.getD 1 0 ≠ 0x0010 ∨
       (data.drop 4).take 12 ≠
         [0x41, 0x53, 0x43, 0x2d, 0x45, 0x31, 0x2e, 0x31, 0x37, 0, 0, 0] ∨
       data.getD 125 0 ≠ 0)) ∧
    (126 ≤ data.length →
     256 * data.getD 0 0 + data.getD 1 0 = 0x0010 →
     (data.drop 4).take 12 =
       [0x41, 0x53, 0x43, 0x2d, 0x45, 0x31, 0x2e, 0x31, 0x37, 0, 0, 0] →
     data.getD 125 0 = 0 →
     parse_e131_packet data =
       some ⟨256 * data.getD 113 0 + data.getD 114 0, data.getD 111 0,
         specStrip (data.drop 126)⟩) := by
  have hacn : ([0x41, 0x53, 0x43, 0x2d, 0x45, 0x31, 0x2e, 0x31, 0x37, 0, 0, 0] :
      List Nat) = ACN_PACKET_IDENTIFIER := rfl
  rw [hacn]
  simp only [parse_e131_packet]
  split_ifs with hA hB hC hD
  · exact ⟨iff_of_true rfl (Or.inl hA), fun h126 _ _ _ => absurd h126 (by omega)⟩
  · exact ⟨iff_of_true rfl (Or.inr (Or.inl hB)), fun _ hpre _ _ => absurd hpre hB⟩
  · exact ⟨iff_of_true rfl (Or.inr (Or.inr (Or.inl hC))),
      fun _ _ hid _ => absurd hid hC⟩
  · exact ⟨iff_of_true rfl (Or.inr (Or.inr (Or.inr hD))),
      fun _ _ _ hsc => absurd hsc hD⟩
  · refine ⟨iff_of_false (by simp) ?_, fun _ _ _ _ => ?_⟩
    · rintro (h | h | h | h)
      exacts [hA h, hB h, hC h, hD h]
    · rw [stripTrailingZeros_eq_specStrip]

theorem claim_C2_decode_contract_witness :
    (∀ b ∈ List.replicate 10 0, b < 256) ∧
    parse_e131_packet (List.replicate 10 0) = none :=
  ⟨by decide,
   (claim_C2_decode_contract (List.replicate 10 0) (by decide)).1.mpr
     (by decide)⟩

/-- C10: a buffer of exactly 126 bytes with valid preamble, ACN identifier
and DMX start code is not rejected: `parse_e131_packet` returns a packet
with an empty channel-data list (length 0, below the documented minimum of
one byte), and a `receive` of such a packet returns a frame of exactly
`num_channels` entries, all 0.0. -/
theorem claim_C10_empty_dmx_frame (data : List Nat) (cfg : NetConfig)
    (st : NetState) (hlen : data.length = 126)
    (hpre : 256 * data.getD 0 0 + data.getD 1 0 = 0x0010)
    (hacn : (data.drop 4).take 12 =
      [0x41, 0x53, 0x43, 0x2d, 0x45, 0x31, 0x2e, 0x31, 0x37, 0, 0, 0])
    (hsc : data.getD 125 0 = 0) (hstream : st.network_stream = true) :
    parse_e131_packet data =
      some ⟨256 * data.getD 113 0 + data.getD 114 0, data.getD 111 0, []⟩ ∧
    (receive cfg st (some data)).1 = some (List.replicate cfg.num_channels 0) := by
  have hacn' : (data.drop 4).take 12 = ACN_PACKET_IDENTIFIER := hacn
  have hdrop : data.drop 126 = [] := by
    apply List.eq_nil_of_length_eq_zero
    rw [List.length_drop]
    omega
  have hparse : parse_e131_packet data =
      some ⟨256 * data.getD 113 0 + data.getD 114 0, data.getD 111 0, []⟩ := by
    simp only [parse_e131_packet]
    rw [if_neg (by omega), if_neg (not_not_intro hpre),
      if_neg (not_not_intro hacn'), if_neg (not_not_intro hsc), hdrop]
    rfl
  refine ⟨hparse, ?_⟩
  have htake : data.take 1024 = data := List.take_of_length_le (by omega)
  have hpad : padOrTruncate cfg.num_channels ([] : List ℚ) =
      List.replicate cfg.num_channels 0 := by
    unfold padOrTruncate
    simp only [List.length_nil]
    split_ifs with h1 h2
    · simp
    · omega
    · have hn : cfg.num_channels = 0 := by omega
      simp [hn]
  simp [receive, hstream, htake, hparse, hpad]

set_option maxRecDepth 8000 in
theorem claim_C10_empty_dmx_frame_witness :
    ((e131_encode "Test" 1 42 []).length = 126 ∧
      (e131_encode "Test" 1 42 []).getD 125 0 = 0) ∧
    parse_e131_packet (e131_encode "Test" 1 42 []) =
      some ⟨256 * (e131_encode "Test" 1 42 []).getD 113 0 +
              (e131_encode "Test" 1 42 []).getD 114 0,
            (e131_encode "Test" 1 42 []).getD 111 0, []⟩ ∧
    (receive cfgStd stReady (some (e131_encode "Test" 1 42 []))).1 =
      some (List.replicate cfgStd.num_channels 0) :=
  ⟨⟨by decide, by decide⟩,
   claim_C10_empty_dmx_frame (e131_encode "Test" 1 42 []) cfgStd stReady
     (by decide) (by decide) (by decide) (by decide) (by decide)⟩

/-- C3: a broadcast of `n` channels sends exactly `⌈n / universe_boundary⌉`
packets with consecutive universe numbers from `universe_start`, every packet
carrying the shared sequence number and at most `universe_boundary` channels
(packet `i` carries `min boundary (n - i*boundary)` channels, so the last
carries the remainder), and the single sequence counter is incremented by
exactly 1 mod 256 once per call. -/
theorem claim_C3_universe_splitting (cfg : NetConfig) (st : NetState)
    (brightness_array : List ℚ) (hstream : st.network_stream = true)
    (hb : 1 ≤ cfg.universe_boundary) :
    (broadcast cfg st brightness_array).1.length =
      (brightness_array.length + cfg.universe_boundary - 1) /
        cfg.universe_boundary ∧
    (∀ p ∈ (broadcast cfg st brightness_array).1,
      p.sequence = st.sequence_num ∧ p.data.length ≤ cfg.universe_boundary) ∧
    (∀ i, i < (broadcast cfg st brightness_array).1.length →
      ((broadcast cfg st brightness_array).1[i]?.map
          (fun p => p.universe_id)) = some (cfg.universe_start + i) ∧
      ((broadcast cfg st brightness_array).1[i]?.map
          (fun p => p.data.length)) =
        some (min cfg.universe_boundary
          (brightness_array.length - i * cfg.universe_boundary))) ∧
    (∀ i, i + 1 = (broadcast cfg st brightness_array).1.length →
      ((broadcast cfg st brightness_array).1[i]?.map (fun p => p.data.length)) =
        some (brightness_array.length - i * cfg.universe_boundary)) ∧
    (broadcast cfg st brightness_array).2.sequence_num =
      (st.sequence_num + 1) % 256 ∧
    (broadcast cfg st brightness_array).2.last_sequence = st.last_sequence := by
  have hlenD : (brightness_array.map dmxOfBrightness).length =
      brightness_array.length := List.length_map _ _
  have hbr :
      broadcast cfg st brightness_array =
        ((List.range ((brightness_array.length + cfg.universe_boundary - 1) /
            cfg.universe_boundary)).map (fun univ_idx =>
          SentPacket.mk (cfg.universe_start + univ_idx) st.sequence_num
            (if ((brightness_array.map dmxOfBrightness).take
                  (min (univ_idx * cfg.universe_boundary + cfg.universe_boundary)
                    brightness_array.length)).drop
                  (univ_idx * cfg.universe_boundary) = []
             then [0]
             else ((brightness_array.map dmxOfBrightness).take
                  (min (univ_idx * cfg.universe_boundary + cfg.universe_boundary)
                    brightness_array.length)).drop
                  (univ_idx * cfg.universe_boundary))),
         { st with sequence_num := (st.sequence_num + 1) % 256 }) := by
    unfold broadcast
    rw [hstream, if_neg (by simp)]
    simp only [hlenD]
  have hmul : ∀ i, i < (brightness_array.length + cfg.universe_boundary - 1) /
      cfg.universe_boundary →
      i * cfg.universe_boundary < brightness_array.length := by
    intro i hi
    by_contra hcon
    push_neg at hcon
    have h1 : brightness_array.length + cfg.universe_boundary - 1 ≤
        cfg.universe_boundary * i + (cfg.universe_boundary - 1) := by
      have hcomm : i * cfg.universe_boundary = cfg.universe_boundary * i :=
        Nat.mul_comm _ _
      omega
    have h2 := Nat.div_le_div_right (c := cfg.universe_boundary) h1
    have h3 : (cfg.universe_boundary * i + (cfg.universe_boundary - 1)) /
        cfg.universe_boundary = i := by
      rw [Nat.mul_add_div (by omega)]
      have : (cfg.universe_boundary - 1) / cfg.universe_boundary = 0 :=
        Nat.div_eq_of_lt (by omega)
      omega
    omega
  have hdlen : ∀ i,
      i < (brightness_array.length + cfg.universe_boundary - 1) /
        cfg.universe_boundary →
      (if ((brightness_array.map dmxOfBrightness).take
            (min (i * cfg.universe_boundary + cfg.universe_boundary)
              brightness_array.length)).drop (i * cfg.universe_boundary) = []
       then ([0] : List Nat)
       else ((brightness_array.map dmxOfBrightness).take
            (min (i * cfg.universe_boundary + cfg.universe_boundary)
              brightness_array.length)).drop
            (i * cfg.universe_boundary)).length =
        min cfg.universe_boundary
          (brightness_array.length - i * cfg.universe_boundary) := by
    intro i hi
    have h1 := hmul i hi
    have hud : (((brightness_array.map dmxOfBrightness).take
          (min (i * cfg.universe_boundary + cfg.universe_boundary)
            brightness_array.length)).drop
          (i * cfg.universe_boundary)).length =
        min cfg.universe_boundary
          (brightness_array.length - i * cfg.universe_boundary) := by
      rw [List.length_drop, List.length_take, hlenD]
      omega
    rw [if_neg (List.ne_nil_of_length_pos (by rw [hud]; omega))]
    exact hud
  have hlen1 : (broadcast cfg st brightness_array).1.length =
      (brightness_array.length + cfg.universe_boundary - 1) /
        cfg.universe_boundary := by
    rw [hbr]
    simp
  refine ⟨hlen1, ?_, ?_, ?_, ?_, ?_⟩
  · intro p hp
    rw [hbr] at hp
    obtain ⟨i, hi, rfl⟩ := List.mem_map.mp hp
    rw [List.mem_range] at hi
    refine ⟨rfl, ?_⟩
    have h := hdlen i hi
    exact le_trans (le_of_eq h) (Nat.min_le_left _ _)
  · intro i hi
    rw [hlen1] at hi
    rw [hbr]
    rw [List.getElem?_map, List.getElem?_range hi]
    exact ⟨congrArg some rfl, congrArg some (hdlen i hi)⟩
  · intro i hi
    rw [hlen1] at hi
    have hi' : i < (brightness_array.length + cfg.universe_boundary - 1) /
        cfg.universe_boundary := by omega
    rw [hbr]
    rw [List.getElem?_map, List.getElem?_range hi']
    have hrem : min cfg.universe_boundary
        (brightness_array.length - i * cfg.universe_boundary) =
        brightness_array.length - i * cfg.universe_boundary := by
      have hdm := Nat.div_add_mod
        (brightness_array.length + cfg.universe_boundary - 1)
        cfg.universe_boundary
      have hmod : (brightness_array.length + cfg.universe_boundary - 1) %
          cfg.universe_boundary < cfg.universe_boundary := Nat.mod_lt _ (by omega)
      have hib : i * cfg.universe_boundary + cfg.universe_boundary =
          cfg.universe_boundary *
            ((brightness_array.length + cfg.universe_boundary - 1) /
              cfg.universe_boundary) := by
        rw [← hi]
        ring
      generalize hKB : cfg.universe_boundary *
          ((brightness_array.length + cfg.universe_boundary - 1) /
            cfg.universe_boundary) = KB at hdm hib
      generalize hIB : i * cfg.universe_boundary = IB at hib ⊢
      omega
    exact congrArg some ((hdlen i hi').trans hrem)
  · rw [hbr]
  · rw [hbr]

theorem claim_C3_universe_splitting_witness :
    (stReady.network_stream = true ∧ 1 ≤ cfgStd.universe_boundary) ∧
    (broadcast cfgStd stReady frame600).1.length = 2 ∧
    ((broadcast cfgStd stReady frame600).1[0]?.map
        (fun p => p.universe_id)) = some 1 ∧
    ((broadcast cfgStd stReady frame600).1[0]?.map
        (fun p => p.data.length)) = some 512 ∧
    ((broadcast cfgStd stReady frame600).1[1]?.map
        (fun p => p.universe_id)) = some 2 ∧
    ((broadcast cfgStd stReady frame600).1[1]?.map
        (fun p => p.data.length)) = some 88 ∧
    (broadcast cfgStd stReady frame600).2.sequence_num = 8 := by
  have h := claim_C3_universe_splitting cfgStd stReady frame600 rfl
    (by norm_num [cfgStd])
  have hlen600 : frame600.length = 600 := List.length_replicate 600 _
  have hlen : (broadcast cfgStd stReady frame600).1.length = 2 := by
    rw [h.1, hlen600]
    norm_num [cfgStd]
  refine ⟨⟨rfl, by norm_num [cfgStd]⟩, hlen, ?_, ?_, ?_, ?_, ?_⟩
  · refine ((h.2.2.1 0 (by omega)).1).trans ?_
    norm_num [cfgStd]
  · refine ((h.2.2.1 0 (by omega)).2).trans ?_
    rw [hlen600]
    norm_num [cfgStd]
  · refine ((h.2.2.1 1 (by omega)).1).trans ?_
    norm_num [cfgStd]
  · refine ((h.2.2.1 1 (by omega)).2).trans ?_
    rw [hlen600]
    norm_num [cfgStd]
  · refine (h.2.2.2.2.1).trans ?_
    norm_num [stReady]

/-- C4: on one universe, after receiving sequences 254 then 255, a following
sequence 0 is not flagged out-of-order (wraparound tolerance, the last-seen
255 is ≥ 250), while sequence 5 right after 200 is flagged; in both cases the
packet is still applied — `last_sequence[universe]` is unconditionally
updated to the new sequence and a decoded frame is returned. -/
theorem claim_C4_sequence_wraparound (cfg : NetConfig) (st0 : NetState)
    (u : Nat) (hu : u < 65536) (hstream : st0.network_stream = true)
    (hmap : st0.last_sequence = []) :
    (let r1 := receive cfg st0
        (some (e131_encode "LightShowPi" u 254 samplePayload))
     let r2 := receive cfg r1.2.2
        (some (e131_encode "LightShowPi" u 255 samplePayload))
     let r3 := receive cfg r2.2.2
        (some (e131_encode "LightShowPi" u 0 samplePayload))
     r3.2.1 = false ∧ r3.1.isSome = true ∧ r3.2.2.last_sequence = [(u, 0)]) ∧
    (let q1 := receive cfg st0
        (some (e131_encode "LightShowPi" u 200 samplePayload))
     let q2 := receive cfg q1.2.2
        (some (e131_encode "LightShowPi" u 5 samplePayload))
     q2.2.1 = true ∧ q2.1.isSome = true ∧ q2.2.2.last_sequence = [(u, 5)]) := by
  have hp : samplePayload.length ≤ 898 := by norm_num [samplePayload]
  have hU : u % 65536 = u := Nat.mod_eq_of_lt hu
  have hset0 : ∀ v : Nat, assocSet ([] : List (Nat × Nat)) u v = [(u, v)] :=
    fun v => rfl
  have hset1 : ∀ w v : Nat, assocSet [(u, w)] u v = [(u, v)] := by
    intro w v
    simp [assocSet]
  have hget : ∀ w : Nat, lastSeqGet [(u, w)] u = (w : Int) := by
    intro w
    simp [lastSeqGet, List.lookup]
  have hgetnil : lastSeqGet ([] : List (Nat × Nat)) u = -1 := rfl
  constructor
  · have e1 := receive_encoded cfg st0 "LightShowPi" u 254 samplePayload
      hstream hp
    rw [hU, hmap, hgetnil, hset0] at e1
    have e2 := receive_encoded cfg { st0 with last_sequence := [(u, 254 % 256)] }
      "LightShowPi" u 255 samplePayload hstream hp
    rw [hU] at e2
    simp only at e2
    rw [hget, hset1] at e2
    have e3 := receive_encoded cfg { st0 with last_sequence := [(u, 255 % 256)] }
      "LightShowPi" u 0 samplePayload hstream hp
    rw [hU] at e3
    simp only at e3
    rw [hget, hset1] at e3
    simp only [e1, e2, e3]
    refine ⟨?_, rfl, ?_⟩
    · show out_of_order_flag ((255 % 256 : Nat) : Int) (0 % 256) = false
      rfl
    · trivial
  · have e1 := receive_encoded cfg st0 "LightShowPi" u 200 samplePayload
      hstream hp
    rw [hU, hmap, hgetnil, hset0] at e1
    have e2 := receive_encoded cfg { st0 with last_sequence := [(u, 200 % 256)] }
      "LightShowPi" u 5 samplePayload hstream hp
    rw [hU] at e2
    simp only at e2
    rw [hget, hset1] at e2
    simp only [e1, e2]
    refine ⟨?_, rfl, ?_⟩
    · show out_of_order_flag ((200 % 256 : Nat) : Int) (5 % 256) = true
      rfl
    · trivial

theorem claim_C4_sequence_wraparound_witness :
    ((9 : Nat) < 65536 ∧ stFresh.network_stream = true ∧
      stFresh.last_sequence = []) ∧
    ((let r1 := receive cfgStd stFresh
        (some (e131_encode "LightShowPi" 9 254 samplePayload))
      let r2 := receive cfgStd r1.2.2
        (some (e131_encode "LightShowPi" 9 255 samplePayload))
      let r3 := receive cfgStd r2.2.2
        (some (e131_encode "LightShowPi" 9 0 samplePayload))
      r3.2.1 = false ∧ r3.1.isSome = true ∧ r3.2.2.last_sequence = [(9, 0)]) ∧
     (let q1 := receive cfgStd stFresh
        (some (e131_encode "LightShowPi" 9 200 samplePayload))
      let q2 := receive cfgStd q1.2.2
        (some (e131_encode "LightShowPi" 9 5 samplePayload))
      q2.2.1 = true ∧ q2.1.isSome = true ∧ q2.2.2.last_sequence = [(9, 5)])) :=
  ⟨⟨by decide, rfl, rfl⟩,
   claim_C4_sequence_wraparound cfgStd stFresh 9 (by decide) rfl rfl⟩

/-- C5: end-to-end value fidelity for the spec's 16-channel scenario with
`universe_start = 1` and `universe_boundary = 512`: broadcast emits exactly
one packet whose payload is the clamped, 255-quantized frame, and a receive
of that packet's wire bytes returns a 16-element frame within 1/255 of the
input on every channel. -/
theorem claim_C5_end_to_end_fidelity (cfg : NetConfig) (srv cli : NetState)
    (frame : List ℚ)
    (hc1 : cfg.universe_start = 1) (hc2 : cfg.universe_boundary = 512)
    (hc3 : cfg.num_channels = 16)
    (hsrv : srv.network_stream = true) (hcli : cli.network_stream = true)
    (hlen : frame.length = 16) (hrange : ∀ b ∈ frame, 0 ≤ b ∧ b ≤ 1) :
    (broadcast cfg srv frame).1 =
      [SentPacket.mk 1 srv.sequence_num (frame.map dmxOfBrightness)] ∧
    (receive cfg cli (some (SentPacket.mk 1 srv.sequence_num
        (frame.map dmxOfBrightness)).wire)).1.isSome = true ∧
    ((receive cfg cli (some (SentPacket.mk 1 srv.sequence_num
        (frame.map dmxOfBrightness)).wire)).1.getD []).length = 16 ∧
    (∀ i, i < 16 →
      |((receive cfg cli (some (SentPacket.mk 1 srv.sequence_num
          (frame.map dmxOfBrightness)).wire)).1.getD []).getD i 0 -
        frame.getD i 0| ≤ 1 / 255) := by
  have hdmxlen : (frame.map dmxOfBrightness).length = 16 := by
    rw [List.length_map, hlen]
  have hb1 := broadcast_single cfg srv frame hsrv (by omega) (by omega)
  have hwire : (SentPacket.mk 1 srv.sequence_num
      (frame.map dmxOfBrightness)).wire =
      e131_encode "LightShowPi" 1 srv.sequence_num (frame.map dmxOfBrightness) :=
    rfl
  have hr := receive_encoded cfg cli "LightShowPi" 1 srv.sequence_num
    (frame.map dmxOfBrightness) hcli (by omega)
  rw [hc3] at hr
  rw [← hwire] at hr
  have hmle : (stripTrailingZeros (frame.map dmxOfBrightness)).length ≤ 16 := by
    have := stripTrailingZeros_length_le (frame.map dmxOfBrightness)
    omega
  have hmaplen :
      ((stripTrailingZeros (frame.map dmxOfBrightness)).map
        (fun d : Nat => (d : ℚ) / 255)).length =
      (stripTrailingZeros (frame.map dmxOfBrightness)).length :=
    List.length_map _ _
  have houtlen : (padOrTruncate 16
      ((stripTrailingZeros (frame.map dmxOfBrightness)).map
        (fun d : Nat => (d : ℚ) / 255))).length = 16 :=
    padOrTruncate_length_of_le 16 _ (by omega)
  refine ⟨?_, ?_, ?_, ?_⟩
  · rw [hb1]
    rw [hc1]
  · rw [hr]
    rfl
  · rw [hr]
    simpa using houtlen
  · intro i hi
    rw [hr]
    simp only [Option.getD_some]
    by_cases hcase : i < (stripTrailingZeros (frame.map dmxOfBrightness)).length
    · rw [padOrTruncate_getD_lt 16 _ i (by omega) hi]
      rw [getD_map_lt _ _ i 0 0 hcase]
      rw [stripTrailingZeros_getD _ i hcase]
      rw [getD_map_lt dmxOfBrightness frame i 0 0 (by omega)]
      have hx := hrange _ (getD_mem_of_lt frame i 0 (by omega))
      exact dmxOfBrightness_roundtrip _ hx.1 hx.2
    · push_neg at hcase
      rw [padOrTruncate_getD_ge 16 _ i (by omega) hi]
      have hz : (frame.map dmxOfBrightness).getD i 0 = 0 :=
        getD_zero_of_strip_le _ i (by omega)
      rw [getD_map_lt dmxOfBrightness frame i 0 0 (by omega)] at hz
      have hx := hrange _ (getD_mem_of_lt frame i 0 (by omega))
      have hbound := dmxOfBrightness_roundtrip (frame.getD i 0) hx.1 hx.2
      rw [hz] at hbound
      simpa using hbound

theorem claim_C5_end_to_end_fidelity_witness :
    (cfgStd.universe_start = 1 ∧ cfgStd.universe_boundary = 512 ∧
     cfgStd.num_channels = 16 ∧ sampleFrame.length = 16 ∧
     (∀ b ∈ sampleFrame, 0 ≤ b ∧ b ≤ 1)) ∧
    (broadcast cfgStd stFresh sampleFrame).1 =
      [SentPacket.mk 1 stFresh.sequence_num (sampleFrame.map dmxOfBrightness)] ∧
    |((receive cfgStd stFresh (some (SentPacket.mk 1 stFresh.sequence_num
        (sampleFrame.map dmxOfBrightness)).wire)).1.getD []).getD 0 0 -
      sampleFrame.getD 0 0| ≤ 1 / 255 := by
  have h := claim_C5_end_to_end_fidelity cfgStd stFresh stFresh sampleFrame
    rfl rfl rfl rfl rfl (by norm_num [sampleFrame]) (by norm_num [sampleFrame])
  exact ⟨⟨rfl, rfl, rfl, by norm_num [sampleFrame], by norm_num [sampleFrame]⟩,
    h.1, h.2.2.2 0 (by norm_num)⟩

/-- C6: data-plane target-address resolution follows the fixed priority
multicast > unicast > broadcast: with multicast enabled the target is
`239.255.<high_byte(universe_start)>.<low_byte(universe_start)>`; otherwise
with a non-empty unicast list the first (trimmed) address is used; otherwise
the broadcast address. -/
theorem claim_C6_target_address_priority (em : Bool) (addr : String) (u : Nat) :
    (em = true →
      resolve_target_address em addr u =
        "239.255." ++ toString (u / 2 ^ 8 % 2 ^ 8) ++ "."
          ++ toString (u % 2 ^ 8)) ∧
    (em = false → addr ≠ "" →
      resolve_target_address em addr u = ((addr.splitOn ",").headD "").trim) ∧
    (em = false → addr = "" →
      resolve_target_address em addr u = "<broadcast>") := by
  refine ⟨?_, ?_, ?_⟩
  · intro he
    subst he
    unfold resolve_target_address
    rw [if_pos rfl]
    have h1 : u >>> 8 &&& 0xFF = u / 2 ^ 8 % 2 ^ 8 := by
      rw [Nat.shiftRight_eq_div_pow]
      show u / 2 ^ 8 &&& (2 ^ 8 - 1) = u / 2 ^ 8 % 2 ^ 8
      exact Nat.and_pow_two_sub_one_eq_mod _ 8
    have h2 : u &&& 0xFF = u % 2 ^ 8 := by
      show u &&& (2 ^ 8 - 1) = u % 2 ^ 8
      exact Nat.and_pow_two_sub_one_eq_mod _ 8
    rw [h1, h2]
  · intro he hne
    subst he
    unfold resolve_target_address
    rw [if_neg (by simp), if_pos hne]
  · intro he hempty
    subst he
    unfold resolve_target_address
    rw [if_neg (by simp), if_neg (by simp [hempty])]

theorem claim_C6_target_address_priority_witness :
    resolve_target_address true "" 258 =
      "239.255." ++ toString (258 / 2 ^ 8 % 2 ^ 8) ++ "."
        ++ toString (258 % 2 ^ 8) ∧
    resolve_target_address false "192.168.1.7, 192.168.1.8" 258 =
      (("192.168.1.7, 192.168.1.8".splitOn ",").headD "").trim ∧
    resolve_target_address false "" 258 = "<broadcast>" :=
  ⟨(claim_C6_target_address_priority true "" 258).1 rfl,
   (claim_C6_target_address_priority false "192.168.1.7, 192.168.1.8" 258).2.1
     rfl (by decide),
   (claim_C6_target_address_priority false "" 258).2.2 rfl rfl⟩

/-- C7, as claimed, is false on the code: a control-plane socket creation
failure does not exit the process — setup completes in a degraded state with
`control_stream = None` (networking_sacn.py:142-145 and 195-198). -/
theorem claim_C7_counterexample :
    setup_server_outcome true false = SetupResult.ready true false ∧
    setup_client_outcome true false = SetupResult.ready true false :=
  ⟨rfl, rfl⟩

/-- C7 (amended): only a data-plane socket creation failure at setup is
fatal — in both roles the process exits with code 1; a control-plane socket
creation failure is logged and setup completes without a control plane. -/
theorem claim_C7_amended (c : Bool) :
    setup_server_outcome false c = SetupResult.exited 1 ∧
    setup_client_outcome false c = SetupResult.exited 1 ∧
    setup_server_outcome true c = SetupResult.ready true c ∧
    setup_client_outcome true c = SetupResult.ready true c :=
  ⟨rfl, rfl, rfl, rfl⟩

/-- C8: after `close_connection` (both socket references released), every
`broadcast`, `broadcast_overrides`, `receive` and `receive_control_message`
is a no-op that returns without raising (empty send list, `none` results)
and leaves the sequence counter and last-seen sequence map unchanged. -/
theorem claim_C8_closed_noop (cfg : NetConfig) (st : NetState)
    (brightness_array : List ℚ) (always_off always_on inverted : List Nat)
    (now : ℚ) (incoming : Option (List Nat)) (cd : ControlDatagram) :
    broadcast cfg (close_connection st) brightness_array =
      ([], close_connection st) ∧
    broadcast_overrides cfg (close_connection st) always_off always_on
      inverted now = ([], close_connection st) ∧
    receive cfg (close_connection st) incoming =
      (none, false, close_connection st) ∧
    receive_control_message (close_connection st) cd =
      (none, close_connection st) ∧
    (close_connection st).sequence_num = st.sequence_num ∧
    (close_connection st).last_sequence = st.last_sequence :=
  ⟨rfl, rfl, rfl, rfl, rfl, rfl⟩

/-- C9: the band count invariant of the energy engine — for every input
block, `calculate_levels` returns exactly `num_bins` values, whatever the
window, spectrum, normalization reference and sample content are. -/
theorem claim_C9_band_count_invariant (chunk_size sample_rate num_bins : Nat)
    (min_frequency max_frequency : ℚ) (custom : Option (List (ℚ × ℚ)))
    (edge : Nat → ℚ) (use_gpu : Bool) (m : FFT)
    (hinit : FFT.init chunk_size sample_rate num_bins min_frequency
      max_frequency custom edge use_gpu = some m)
    (spectrum : List ℚ → List ℚ) (window : List ℚ) (full_scale : ℚ)
    (samples : List Int) :
    (m.calculate_levels spectrum window full_scale samples).length =
      num_bins := by
  have hfl : m.frequency_limits.length = num_bins := by
    unfold FFT.init at hinit
    split_ifs at hinit
    split at hinit
    · split_ifs at hinit with h3
      have hm := Option.some.inj hinit
      rw [← hm]
      exact h3
    · have hm := Option.some.inj hinit
      rw [← hm]
      simp
  unfold FFT.calculate_levels
  simp [hfl]

theorem claim_C9_band_count_invariant_witness :
    FFT.init 4 8 3 20 15000 none (fun i => (i : ℚ) + 1) true =
      some fftSmall ∧
    (fftSmall.calculate_levels id [1, 1, 1, 1] 100 [3, -2]).length = 3 := by
  have hinit : FFT.init 4 8 3 20 15000 none (fun i => (i : ℚ) + 1) true =
      some fftSmall := by
    norm_num [FFT.init, fftSmall, List.range_succ]
  exact ⟨hinit,
    claim_C9_band_count_invariant 4 8 3 20 15000 none (fun i => (i : ℚ) + 1)
      true fftSmall hinit id [1, 1, 1, 1] 100 [3, -2]⟩

end LightshowPiNeo
